import Mathlib

/-
Verification of the capture-persistence behavior of the
KnowledgeManagementSystem repository.

The development shallowly embeds, faithfully to the source:
  - the capture identifier generators
    (generateCaptureId in the web serializer module and in
    client/src/terminal/markdown.ts),
  - the markdown serializer formatCaptureMarkdown with its helpers
    normalizeArray, getContextEntities and relativeMediaPath, together
    with a model of the js-yaml block-style dump for the exact
    frontmatter shape built there,
  - the Android bridge WebAppInterface (writeTextFile, writeBinaryFile,
    saveMarkdownAndMedia) as a state-passing model over a directory
    abstraction with injected I/O failure,
  - the Backup Rotator, which has no implementation under the sources
    provided and is modelled from the specification text.

JavaScript strings are modelled through Lean strings, with list-level
helpers mirroring the JS operations used by the code (slice, startsWith,
includes, trim, split).
-/

namespace KMS

set_option maxRecDepth 16384

/-! ## JavaScript string helpers -/

/-- Model of the JavaScript expression `s || d` for an optional string
field: `undefined` and the empty string are falsy and give the default. -/
def jsOr (v : Option String) (d : String) : String :=
  match v with
  | some s => if s.isEmpty then d else s
  | none => d

/-- Model of `s.slice(0, n)` on an ASCII JS string: the first n characters. -/
def sliceTo (s : String) (n : Nat) : String :=
  String.mk (s.data.take n)

/-- Model of the whitespace test used by JavaScript `trim`. -/
def isJsSpace (c : Char) : Bool :=
  c = ' ' || c = '\t' || c = '\n' || c = '\r'

/-- Model of JavaScript `s.trim()`: strip whitespace from both ends. -/
def jsTrim (s : String) : String :=
  String.mk (((s.data.dropWhile (isJsSpace ·)).reverse.dropWhile (isJsSpace ·)).reverse)

/-! ## Timestamps and identifier generation

A JS `Date` stores an integral number of milliseconds; we model the
broken-down UTC components it renders. `toISOString` prints
year-month-day T hour:minute:second.millis Z with fixed-width
zero-padded fields. -/

structure Timestamp where
  year : Nat
  month : Nat
  day : Nat
  hour : Nat
  minute : Nat
  second : Nat
  ms : Nat
deriving DecidableEq

/-- The decimal digit character for n % 10, as produced by JS number
formatting of a bounded, zero-padded field. -/
def digitChar (d : Nat) : Char := Char.ofNat (48 + d % 10)

/-- Two-digit zero-padded field, as in `String(n).padStart(2, "0")` for n < 100. -/
def pad2 (n : Nat) : List Char := [digitChar (n / 10), digitChar n]

/-- Three-digit zero-padded field, as in `padStart(3, "0")` for n < 1000. -/
def pad3 (n : Nat) : List Char := [digitChar (n / 100), digitChar (n / 10), digitChar n]

/-- Four-digit year field of `toISOString` for years below 10000. -/
def pad4 (n : Nat) : List Char :=
  [digitChar (n / 1000), digitChar (n / 100), digitChar (n / 10), digitChar n]

/-- Model of `Date.prototype.toISOString`. -/
def toISOString (t : Timestamp) : String :=
  String.mk (pad4 t.year ++ '-' :: pad2 t.month ++ '-' :: pad2 t.day ++
    'T' :: pad2 t.hour ++ ':' :: pad2 t.minute ++ ':' :: pad2 t.second ++
    '.' :: pad3 t.ms ++ ['Z'])

/-- The serializer module's `generateCaptureId(ts)`: it returns the raw
ISO string of the timestamp, nothing more. -/
def generateCaptureId (ts : Timestamp) : String :=
  toISOString ts

/-- Component ranges a `Date` always satisfies when rendered. -/
def Timestamp.Valid (t : Timestamp) : Prop :=
  t.year < 10000 ∧ 0 < t.month ∧ t.month ≤ 12 ∧ 0 < t.day ∧ t.day ≤ 31 ∧
  t.hour < 24 ∧ t.minute < 60 ∧ t.second < 60 ∧ t.ms < 1000

instance (t : Timestamp) : Decidable t.Valid := by
  unfold Timestamp.Valid; infer_instance

namespace Terminal

/-- The terminal front-end's `generateCaptureId(date)` from
client/src/terminal/markdown.ts: local date components padded and joined
as yyyyMMdd_hhmmss_mmm. -/
def generateCaptureId (d : Timestamp) : String :=
  String.mk (pad4 d.year ++ pad2 d.month ++ pad2 d.day ++
    '_' :: (pad2 d.hour ++ pad2 d.minute ++ pad2 d.second) ++
    '_' :: pad3 d.ms)

end Terminal

/-- A real point in time at sub-millisecond precision: the millisecond
value a `Date` keeps, plus the sub-millisecond remainder the `Date`
constructor discards. Two capture events in the same process tick are
two distinct instants with the same stored `date`. -/
structure Instant where
  date : Timestamp
  subMs : Nat
deriving DecidableEq

/-- The identifier a capture started at a given real instant receives:
the generator only ever sees the millisecond-resolution `Date`. -/
def genIdAtInstant (i : Instant) : String :=
  generateCaptureId i.date

/-- Decimal value of a digit character. -/
def digitVal (c : Char) : Nat := c.toNat - 48

/-- Fixed-position parser for the ISO layout produced by `toISOString`;
recovers every component including the milliseconds. -/
def decodeIso : List Char → Option Timestamp
  | [y1, y2, y3, y4, '-', m1, m2, '-', d1, d2, 'T', h1, h2, ':', i1, i2, ':',
      s1, s2, '.', f1, f2, f3, 'Z'] =>
    some ⟨1000 * digitVal y1 + 100 * digitVal y2 + 10 * digitVal y3 + digitVal y4,
      10 * digitVal m1 + digitVal m2,
      10 * digitVal d1 + digitVal d2,
      10 * digitVal h1 + digitVal h2,
      10 * digitVal i1 + digitVal i2,
      10 * digitVal s1 + digitVal s2,
      100 * digitVal f1 + 10 * digitVal f2 + digitVal f3⟩
  | _ => none

/-- Characters acceptable in a file name in the sense of the claim:
not a path separator and not a control character. -/
def filenameSafeChar (c : Char) : Bool :=
  !(c = '/' || c = '\\' || decide (c.toNat < 32) || c.toNat = 127)

/-! ## The markdown serializer (formatCaptureMarkdown and helpers)

Embedding of the web serializer module. The implicit system clock used
when no timestamp is supplied is made an explicit `now` argument. -/

/-- Model of the TS union `string[] | string` for an optional field. -/
inductive StrOrList where
  | undef : StrOrList
  | str : String → StrOrList
  | arr : List String → StrOrList
deriving DecidableEq

/-- Model of the TS union `string | Record<string, string>` for the
optional context field. -/
inductive ContextVal where
  | undef : ContextVal
  | str : String → ContextVal
  | map : List (String × String) → ContextVal
deriving DecidableEq

/-- One entry of `media_files`. -/
structure MediaFile where
  path : String
  type : Option String
  name : Option String
deriving DecidableEq

/-- The serializer's input record (TS type CaptureInput). -/
structure CaptureInput where
  timestamp : Option Timestamp
  capture_id : Option String
  content : Option String
  clipboard : Option String
  context : ContextVal
  tags : StrOrList
  sources : StrOrList
  modalities : Option (List String)
  location : Option String
  metadata : Option (List (String × String))
  created_date : Option String
  last_edited_date : Option String
  media_files : Option (List MediaFile)
deriving DecidableEq

/-- Baseline capture input with every optional field absent. -/
def emptyCapture : CaptureInput :=
  ⟨none, none, none, none, .undef, .undef, .undef, none, none, none, none, none, none⟩

/-- normalizeArray from the serializer: arrays pass through unchanged;
a string is split on commas, each piece trimmed, empties dropped. -/
def normalizeArray : StrOrList → List String
  | .arr l => l
  | .str s => ((s.split (· = ',')).map jsTrim).filter (fun x => !x.isEmpty)
  | .undef => []

/-- getContextEntities from the serializer: a falsy value gives no
entities, a non-empty string one entity, an object its truthy values. -/
def getContextEntities : ContextVal → List String
  | .undef => []
  | .str s => if s.isEmpty then [] else [s]
  | .map m => (m.map Prod.snd).filter (fun x => !x.isEmpty)

/-- The capture directory with a trailing slash, as computed at the top
of relativeMediaPath. -/
def dirSlash (captureDir : String) : String :=
  if captureDir.data.getLast? = some '/' then captureDir else captureDir ++ "/"

/-- relativeMediaPath from the serializer: strip the capture-directory
path from the front of the media path when it is there; otherwise the
media path is returned unchanged. -/
def relativeMediaPath (mediaPath captureDir : String) : String :=
  let fr := dirSlash captureDir
  if mediaPath.data.take fr.data.length = fr.data then
    String.mk (mediaPath.data.drop fr.data.length)
  else mediaPath

/-- The Content body section: present only when the content has
non-whitespace characters. -/
def contentSection (mainContent : String) : List String :=
  if !(jsTrim mainContent).isEmpty then ["## Content\n" ++ mainContent ++ "\n"] else []

/-- The Clipboard body section: present only when the clipboard text has
non-whitespace characters; the text is left verbatim when it starts
with a fence or spans several lines, and is wrapped in a fenced block
otherwise. -/
def clipboardSection (clip : String) : List String :=
  if !(jsTrim clip).isEmpty then
    if clip.data.take 3 = "```".data ∨ '\n' ∈ clip.data then
      ["## Clipboard\n" ++ clip ++ "\n"]
    else
      ["## Clipboard\n```\n" ++ clip ++ "\n```\n"]
  else []

/-- One media body section, by declared type: a Screenshot section uses
the stored path verbatim; Audio, Image and File sections link the path
relativized against the capture directory. -/
def mediaSection (m : MediaFile) (vaultCaptureDirAbs : String) : String :=
  let t := jsOr m.type "file"
  let p := m.path
  if t = "screenshot" then "## Screenshot\n" ++ p ++ "\n"
  else if t = "audio" then
    "## Audio\n[Audio Recording](" ++ relativeMediaPath p vaultCaptureDirAbs ++ ")\n"
  else if t = "image" then
    "## Image\n![Image](" ++ relativeMediaPath p vaultCaptureDirAbs ++ ")\n"
  else "## File\n[Attachment](" ++ relativeMediaPath p vaultCaptureDirAbs ++ ")\n"

/-- All body sections of a capture, in source order: Content, Clipboard,
then one section per media file. -/
def sectionsOf (c : CaptureInput) (vaultCaptureDirAbs : String) : List String :=
  contentSection (jsOr c.content "") ++ clipboardSection (jsOr c.clipboard "") ++
    (c.media_files.getD []).map (fun m => mediaSection m vaultCaptureDirAbs)

/-- The frontmatter object built by formatCaptureMarkdown, field for
field in insertion order; processing status and importance are the
constants the code hardcodes. -/
structure Frontmatter where
  timestamp : String
  id : String
  aliases : List String
  capture_id : String
  modalities : List String
  context : List String
  sources : List String
  tags : List String
  location : Option String
  metadata : List (String × String)
  processing_status : String
  created_date : String
  last_edited_date : String
deriving DecidableEq

/-- The frontmatter value formatCaptureMarkdown assembles from a capture
record, with `now` standing for the system clock read when no timestamp
is supplied. -/
def fmOf (c : CaptureInput) (now : Timestamp) : Frontmatter :=
  let ts := c.timestamp.getD now
  let captureId := jsOr c.capture_id (generateCaptureId ts)
  let isoTs := toISOString ts
  let created := jsOr c.created_date (sliceTo (toISOString ts) 10)
  let edited := jsOr c.last_edited_date (sliceTo (toISOString ts) 10)
  let modalities := match c.modalities with
    | some l => if l.isEmpty then ["text"] else l
    | none => ["text"]
  { timestamp := isoTs
    id := captureId
    aliases := [captureId]
    capture_id := captureId
    modalities := modalities
    context := getContextEntities c.context
    sources := normalizeArray c.sources
    tags := normalizeArray c.tags
    location := c.location
    metadata := c.metadata.getD []
    processing_status := "raw"
    created_date := created
    last_edited_date := edited }

/-! ### Model of js-yaml dump, block style, keys in insertion order

Restricted to single-line scalar values: a value holding a newline would
be emitted by js-yaml in a block style this model does not cover, and
the layout theorems below assume newline-free header fields. Scalars
that could be read back as another YAML type (leading digit, indicator
first character, keywords) are single-quoted, as js-yaml does for the
timestamps and dates this serializer produces. An undefined location is
skipped, like `JSON.stringify` skips undefined object fields. -/

/-- Single-quote character. -/
def sq : Char := '\x27'

/-- Whether js-yaml would not emit the string as a plain scalar. -/
def yamlNeedsQuote (s : String) : Bool :=
  s.isEmpty
  || (s.data.head?.elim false fun c =>
        c.isDigit || c = '-' || c = '?' || c = ':' || c = ',' || c = '[' || c = ']'
          || c = '\x7b' || c = '\x7d' || c = '#' || c = '&' || c = '*' || c = '!'
          || c = '|' || c = '>' || c = sq || c = '"' || c = '%' || c = '@' || c = ' ')
  || (s.data.getLast?.elim false fun c => c = ' ')
  || ':' ∈ s.data || '#' ∈ s.data || '\n' ∈ s.data || sq ∈ s.data
  || s = "null" || s = "true" || s = "false" || s = "~" || s = "yes" || s = "no"

/-- A scalar as js-yaml renders it on one line. -/
def renderScalar (s : String) : String :=
  if yamlNeedsQuote s then String.mk (sq :: s.data ++ [sq]) else s

/-- A mapping entry holding a scalar. -/
def scalarField (k v : String) : List String :=
  [k ++ ": " ++ renderScalar v]

/-- A mapping entry holding a list: flow `[]` when empty, a block
sequence otherwise. -/
def listField (k : String) (items : List String) : List String :=
  if items.isEmpty then [k ++ ": []"]
  else (k ++ ":") :: items.map (fun v => "  - " ++ renderScalar v)

/-- A mapping entry holding a string map: flow braces when empty, a
nested block mapping otherwise. -/
def mapField (k : String) (m : List (String × String)) : List String :=
  if m.isEmpty then [k ++ ": \x7b\x7d"]
  else (k ++ ":") :: m.map (fun p => "  " ++ p.1 ++ ": " ++ renderScalar p.2)

/-- A mapping entry for a value that may be undefined: skipped when
undefined, a scalar entry otherwise. -/
def optField (k : String) (v : Option String) : List String :=
  match v with
  | some s => scalarField k s
  | none => []

/-- All lines of the dumped frontmatter, in the field order of `fmOf`. -/
def yamlLines (fm : Frontmatter) : List String :=
  scalarField "timestamp" fm.timestamp
  ++ scalarField "id" fm.id
  ++ listField "aliases" fm.aliases
  ++ scalarField "capture_id" fm.capture_id
  ++ listField "modalities" fm.modalities
  ++ listField "context" fm.context
  ++ listField "sources" fm.sources
  ++ listField "tags" fm.tags
  ++ optField "location" fm.location
  ++ mapField "metadata" fm.metadata
  ++ scalarField "processing_status" fm.processing_status
  ++ scalarField "created_date" fm.created_date
  ++ scalarField "last_edited_date" fm.last_edited_date
  ++ ["importance: null"]

/-- Lines joined with one newline after every line; js-yaml dump output
always ends with a newline. -/
def joinLines (ls : List String) : String :=
  String.mk (ls.map (fun l => l.data ++ ['\n'])).flatten

/-- Model of `yaml.dump(fm, ...)` for the frontmatter shape above. -/
def yamlDump (fm : Frontmatter) : String :=
  joinLines (yamlLines fm)

/-- Model of `sections.join("")`. -/
def joinAll (l : List String) : String :=
  String.mk (l.map String.data).flatten

/-- Result of the serializer. -/
structure FormattedCapture where
  filename : String
  content : String
deriving DecidableEq

/-- formatCaptureMarkdown: the frontmatter dumped between two separator
lines, the body sections appended directly after the closing separator,
and the filename derived from the capture identifier. -/
def formatCaptureMarkdown (c : CaptureInput) (vaultCaptureDirAbs : String)
    (now : Timestamp) : FormattedCapture :=
  let fm := fmOf c now
  let md := "---\n" ++ yamlDump fm ++ "---\n" ++ joinAll (sectionsOf c vaultCaptureDirAbs)
  { filename := fm.capture_id ++ ".md", content := md }

/-! ## The Android bridge file writer (WebAppInterface)

State-passing model of the SAF-backed writers. A directory is a map
from file names to contents; `WriteOutcome` injects the I/O behavior of
one output-stream write: it either completes, or throws after some
number of units have reached the file, leaving the truncated content
there. `ensureDir` is elided: the two directories are the state. -/

/-- A directory: file name to content. -/
def Dirf (α : Type) : Type := String → Option α

/-- Lookup, as `dir.findFile(name)`. -/
def findFile (d : Dirf α) (n : String) : Option α := d n

/-- Model of `existing.delete()` (a no-op when the file is absent). -/
def deleteFile (d : Dirf α) (n : String) : Dirf α :=
  fun m => if m = n then none else d m

/-- Model of `dir.createFile(mime, name)`: a fresh empty file. The name
never collides because the code just deleted any file of that name. -/
def createFile (d : Dirf α) (n : String) (empty : α) : Dirf α :=
  fun m => if m = n then some empty else d m

/-- Content reaching the file through the output stream. -/
def setFile (d : Dirf α) (n : String) (v : α) : Dirf α :=
  fun m => if m = n then some v else d m

/-- Injected behavior of one output-stream write. -/
inductive WriteOutcome where
  | ok : WriteOutcome
  | failAfter : Nat → WriteOutcome
deriving DecidableEq

/-- Result of one writer call: the directory afterwards and the thrown
exception, if any. -/
structure WriteResult (α : Type) where
  dir : Dirf α
  error : Option String

/-- WebAppInterface.writeTextFile: any existing file of that name is
deleted first, a fresh file is created, and the content is streamed
into it; a failure mid-stream leaves the truncated content visible at
the final name and throws. -/
def writeTextFile (d : Dirf String) (name content : String)
    (w : WriteOutcome) : WriteResult String :=
  let d1 := deleteFile d name
  let d2 := createFile d1 name ""
  match w with
  | .ok => ⟨setFile d2 name content, none⟩
  | .failAfter k => ⟨setFile d2 name (sliceTo content k), some "io error"⟩

/-- WebAppInterface.writeBinaryFile: same shape over decoded bytes. -/
def writeBinaryFile (d : Dirf (List Nat)) (name : String) (bytes : List Nat)
    (w : WriteOutcome) : WriteResult (List Nat) :=
  let d1 := deleteFile d name
  let d2 := createFile d1 name []
  match w with
  | .ok => ⟨setFile d2 name bytes, none⟩
  | .failAfter k => ⟨setFile d2 name (bytes.take k), some "io error"⟩

/-- One media attachment of the save payload, with the injected
behavior of its write. -/
structure MediaItem where
  name : String
  bytes : List Nat
  outcome : WriteOutcome
deriving DecidableEq

/-- The capture directory and the media directory of the vault. -/
structure SaveState where
  captureDir : Dirf String
  mediaDir : Dirf (List Nat)

/-- The media loop of saveMarkdownAndMedia: items written in order, the
first thrown exception aborts the loop and propagates. -/
def processMedia (d : Dirf (List Nat)) : List MediaItem → Dirf (List Nat) × Option String
  | [] => (d, none)
  | m :: rest =>
    let r := writeBinaryFile d m.name m.bytes m.outcome
    match r.error with
    | some e => (r.dir, some e)
    | none => processMedia r.dir rest

/-- WebAppInterface.saveMarkdownAndMedia: the markdown file is written
first, then every media item until the first failure; any exception is
caught at the end and reported, with no cleanup of files already
written. -/
def saveMarkdownAndMedia (st : SaveState) (filename content : String)
    (mdOutcome : WriteOutcome) (media : List MediaItem) : SaveState × Option String :=
  let r := writeTextFile st.captureDir filename content mdOutcome
  match r.error with
  | some e => (⟨r.dir, st.mediaDir⟩, some e)
  | none =>
    let pm := processMedia st.mediaDir media
    (⟨r.dir, pm.1⟩, pm.2)

/-- A vault with no files at all. -/
def emptySave : SaveState := ⟨fun _ => none, fun _ => none⟩

/-! ## Backup Rotator -/

/-- Modelled from the spec: the Backup Rotator of the explicit-update
path (markdown_writer.py, not present under the provided sources).
One backup file of the updated capture: its index n in the
`filename.backup.n` name and its creation time in days. -/
structure Backup where
  idx : Nat
  createdAt : Nat
deriving DecidableEq

/-- Modelled from the spec: retention count (default 5) and maximum
backup age in days (default 30). -/
structure RotatorConfig where
  retention : Nat
  maxAgeDays : Nat
deriving DecidableEq

/-- Modelled from the spec: the next unused backup index, indices
starting at 1. -/
def nextUnusedIdx (bs : List Backup) : Nat :=
  (((List.range (bs.length + 2)).filter
      (fun n => 0 < n && bs.all (fun b => b.idx ≠ n))).headD 1)

/-- Insert one backup into a list sorted by creation time, oldest first. -/
def insertByTime (b : Backup) : List Backup → List Backup
  | [] => [b]
  | x :: xs => if b.createdAt ≤ x.createdAt then b :: x :: xs else x :: insertByTime b xs

/-- Sort backups by creation time, oldest first. -/
def sortByTime : List Backup → List Backup
  | [] => []
  | x :: xs => insertByTime x (sortByTime xs)

/-- Modelled from the spec: one explicit update. The current file is
copied to the next unused backup index; then backups beyond the
retention count are pruned oldest first, and backups older than the
configured age are removed in the same pass. -/
def rotateBackup (cfg : RotatorConfig) (bs : List Backup) (now : Nat) : List Backup :=
  let withNew := bs ++ [⟨nextUnusedIdx bs, now⟩]
  let sorted := sortByTime withNew
  let kept := sorted.drop (sorted.length - cfg.retention)
  kept.filter (fun b => now - b.createdAt ≤ cfg.maxAgeDays)

/-- Backups of one capture after n sequential explicit updates on
days 0, 1, 2, ..., starting from no backups. -/
def runUpdates (cfg : RotatorConfig) : Nat → List Backup
  | 0 => []
  | n + 1 => rotateBackup cfg (runUpdates cfg n) n

/-! ## Concrete fixtures used by the claim theorems -/

/-- A fixed valid timestamp: 2025-01-02T03:04:05.006Z. -/
def Tfix : Timestamp := ⟨2025, 1, 2, 3, 4, 5, 6⟩

/-- A capture as first saved. -/
def cap1 : CaptureInput :=
  { emptyCapture with
    timestamp := some Tfix
    capture_id := some "cap one"
    content := some "one" }

/-- The same logical capture (same identifier), saved again after an edit. -/
def cap2 : CaptureInput := { cap1 with content := some "two" }

/-- A capture directory already holding a persisted capture file. -/
def oldDir : Dirf String := fun m => if m = "cap one.md" then some "old" else none

/-- Two media attachments; the second one's write fails at once. -/
def c3media : List MediaItem := [⟨"a.png", [1, 2], .ok⟩, ⟨"b.png", [3], .failAfter 0⟩]

/-- Two capture events inside the same process tick: distinct real
instants whose Date value is the same millisecond. -/
def tick1 : Instant := ⟨Tfix, 250⟩

/-- Second capture event of the same tick. -/
def tick2 : Instant := ⟨Tfix, 750⟩

/-- A capture whose tags differ only in letter case. -/
def c6cap : CaptureInput :=
  { emptyCapture with
    timestamp := some Tfix
    tags := .arr ["ML", "ml"]
    sources := .arr ["Web", "web"] }

/-- A capture with one screenshot attachment under an absolute path
outside the vault. -/
def c7cap : CaptureInput :=
  { emptyCapture with
    timestamp := some Tfix
    media_files := some [⟨"/abs/shot.png", some "screenshot", none⟩] }

/-- A capture with a multi-line clipboard text. -/
def c8multi : CaptureInput :=
  { emptyCapture with
    timestamp := some Tfix
    clipboard := some "a\nb" }

/-- A capture whose clipboard text is non-empty but all whitespace. -/
def c8ws : CaptureInput :=
  { emptyCapture with
    timestamp := some Tfix
    clipboard := some " " }

/-- Backup retention 5, maximum age 30 days. -/
def rotCfg : RotatorConfig := ⟨5, 30⟩

/-- The media directory after a run of successful attachment writes. -/
def writeOks (d : Dirf (List Nat)) (items : List MediaItem) : Dirf (List Nat) :=
  items.foldl (fun d m => (writeBinaryFile d m.name m.bytes m.outcome).dir) d

/-- A string fit to stand as one line of the header: it holds no
newline. -/
def LineSafe (s : String) : Prop := '\n' ∉ s.data

instance (s : String) : Decidable (LineSafe s) := by
  unfold LineSafe; infer_instance

/-- Line-safety of an optional scalar. -/
def locSafe : Option String → Prop
  | some s => LineSafe s
  | none => True

instance (v : Option String) : Decidable (locSafe v) := by
  cases v <;> (unfold locSafe; infer_instance)

/-- Every string field reaching the header is a single line; the
serializer's contract rejects malformed identifiers and paths before
this stage. -/
def headerSafe (fm : Frontmatter) : Prop :=
  LineSafe fm.timestamp ∧ LineSafe fm.id ∧ (∀ a ∈ fm.aliases, LineSafe a) ∧
  LineSafe fm.capture_id ∧ (∀ a ∈ fm.modalities, LineSafe a) ∧
  (∀ a ∈ fm.context, LineSafe a) ∧ (∀ a ∈ fm.sources, LineSafe a) ∧
  (∀ a ∈ fm.tags, LineSafe a) ∧ locSafe fm.location ∧
  (∀ p ∈ fm.metadata, LineSafe p.1 ∧ LineSafe p.2) ∧
  LineSafe fm.processing_status ∧ LineSafe fm.created_date ∧
  LineSafe fm.last_edited_date

instance (fm : Frontmatter) : Decidable (headerSafe fm) := by
  unfold headerSafe; infer_instance

/-- A header line that keeps the layout intact: not blank, not a
separator line, and free of embedded newlines. -/
def GoodLine (l : String) : Prop := l ≠ "" ∧ l ≠ "---" ∧ LineSafe l

/-! ## Lemmas and claim theorems -/

theorem digitVal_digitChar (x : Nat) : digitVal (digitChar x) = x % 10 := by
  have h10 : x % 10 < 10 := Nat.mod_lt _ (by omega)
  have base : ∀ m, m < 10 → digitVal (Char.ofNat (48 + m)) = m := by decide
  simpa [digitChar] using base (x % 10) h10

theorem filenameSafeChar_digitChar (x : Nat) : filenameSafeChar (digitChar x) = true := by
  have h10 : x % 10 < 10 := Nat.mod_lt _ (by omega)
  have base : ∀ m, m < 10 → filenameSafeChar (Char.ofNat (48 + m)) = true := by decide
  simpa [digitChar] using base (x % 10) h10

theorem decodeIso_toISOString (t : Timestamp) (h : t.Valid) :
    decodeIso (toISOString t).data = some t := by
  show decodeIso (pad4 t.year ++ '-' :: pad2 t.month ++ '-' :: pad2 t.day ++
    'T' :: pad2 t.hour ++ ':' :: pad2 t.minute ++ ':' :: pad2 t.second ++
    '.' :: pad3 t.ms ++ ['Z']) = some t
  obtain ⟨y, mo, d, hh2, mi, s, ms⟩ := t
  simp only [Timestamp.Valid] at h
  simp only [pad4, pad3, pad2, List.cons_append, List.nil_append, decodeIso,
    digitVal_digitChar, Option.some.injEq, Timestamp.mk.injEq]
  refine ⟨?_, ?_, ?_, ?_, ?_, ?_, ?_⟩ <;> omega

/-! ## Claim theorems -/

/-- C1. The claim says a normal create-mode save never modifies or
overwrites an existing capture file, and that saving the same logical
capture twice leaves the first file unchanged with the second save under
a distinct final path. The code does the opposite: the serializer gives
the same logical capture the same filename, and writeTextFile deletes
any existing file of that name and recreates it, so the second save
replaces the first file's content in place. -/
theorem C1_create_mode_save_overwrites :
    (formatCaptureMarkdown cap1 "/v" Tfix).filename
      = (formatCaptureMarkdown cap2 "/v" Tfix).filename
    ∧ (formatCaptureMarkdown cap1 "/v" Tfix).content
      ≠ (formatCaptureMarkdown cap2 "/v" Tfix).content
    ∧ findFile
        (writeTextFile
          (writeTextFile oldDir (formatCaptureMarkdown cap1 "/v" Tfix).filename
            (formatCaptureMarkdown cap1 "/v" Tfix).content .ok).dir
          (formatCaptureMarkdown cap2 "/v" Tfix).filename
          (formatCaptureMarkdown cap2 "/v" Tfix).content .ok).dir
        (formatCaptureMarkdown cap1 "/v" Tfix).filename
      = some (formatCaptureMarkdown cap2 "/v" Tfix).content := by
  refine ⟨by decide, by decide, by decide⟩

/-- C2. The claim says a failed write leaves the target path exactly as
it was. In the code the existing file is deleted up front and content is
streamed straight into the final path, so a failure after one unit
leaves a truncated file at the final name and the previous content is
gone. -/
theorem C2_failed_write_leaves_truncated_file :
    findFile oldDir "cap one.md" = some "old"
    ∧ (writeTextFile oldDir "cap one.md" "new" (.failAfter 1)).error = some "io error"
    ∧ findFile (writeTextFile oldDir "cap one.md" "new" (.failAfter 1)).dir "cap one.md"
      = some "n" := by
  refine ⟨by decide, by decide, by decide⟩

/-- C3 counterexample. With two attachments whose second write fails,
the save reports an error, but the markdown file has been created and
the first attachment stays on disk: there is no rollback and no
distinguished MediaWriteFailed report, contradicting the claim. -/
theorem C3_no_rollback_counterexample :
    (saveMarkdownAndMedia emptySave "c.md" "X" .ok c3media).2 = some "io error"
    ∧ findFile (saveMarkdownAndMedia emptySave "c.md" "X" .ok c3media).1.captureDir "c.md"
      = some "X"
    ∧ findFile (saveMarkdownAndMedia emptySave "c.md" "X" .ok c3media).1.mediaDir "a.png"
      = some [1, 2] := by
  refine ⟨by decide, by decide, by decide⟩

/-- C5 counterexample. Two capture events in the same process tick are
distinct instants whose Date holds the same millisecond; the generator
is a pure function of that Date, so their identifiers are identical,
never distinct. -/
theorem C5_same_tick_identical_ids :
    tick1 ≠ tick2 ∧ tick1.date = tick2.date
    ∧ genIdAtInstant tick1 = genIdAtInstant tick2 := by
  refine ⟨by decide, by decide, by decide⟩

/-- C6 counterexample. Tags differing only in case are both rendered
into the header: normalizeArray performs no case-insensitive
deduplication, so "ML" and "ml" do not collapse to one entry. -/
theorem C6_case_variants_kept :
    (fmOf c6cap Tfix).tags = ["ML", "ml"]
    ∧ "  - ML" ∈ yamlLines (fmOf c6cap Tfix)
    ∧ "  - ml" ∈ yamlLines (fmOf c6cap Tfix)
    ∧ (fmOf c6cap Tfix).sources = ["Web", "web"] := by
  refine ⟨by decide, by decide, by decide, by decide⟩

/-- C7 counterexample. A screenshot media entry is rendered with its
stored path verbatim: an absolute path outside the vault appears
absolute in the body, not relative to the media root. -/
theorem C7_absolute_screenshot_path :
    sectionsOf c7cap "/v/capture/raw_capture" = ["## Screenshot\n/abs/shot.png\n"]
    ∧ "/abs/shot.png".data.head? = some '/' := by
  refine ⟨by decide, by decide⟩

/-- C8 counterexample. A multi-line clipboard text is emitted verbatim,
not wrapped in a fence, and a whitespace-only (hence non-empty)
clipboard yields no Clipboard section at all — the opposite of the
claimed fencing condition, and a trim-based emptiness test rather than
an emptiness test. -/
theorem C8_clipboard_counterexample :
    sectionsOf c8multi "/v" = ["## Clipboard\na\nb\n"]
    ∧ "## Clipboard\na\nb\n" ≠ "## Clipboard\n```\na\nb\n```\n"
    ∧ (" " : String) ≠ "" ∧ sectionsOf c8ws "/v" = [] := by
  refine ⟨by decide, by decide, by decide, by decide⟩

/-- C9. Modelled from the spec (the Backup Rotator is not under the
provided sources): after 6 sequential explicit updates to one capture
with retention 5, exactly 5 backup files remain and the oldest one
(index 1, the first created) has been pruned. -/
theorem C9_backup_retention :
    runUpdates rotCfg 6 = [⟨2, 1⟩, ⟨3, 2⟩, ⟨4, 3⟩, ⟨5, 4⟩, ⟨6, 5⟩]
    ∧ (runUpdates rotCfg 6).length = rotCfg.retention
    ∧ (runUpdates rotCfg 6).all (fun b => b.idx ≠ 1) = true
    ∧ runUpdates rotCfg 5 = [⟨1, 0⟩, ⟨2, 1⟩, ⟨3, 2⟩, ⟨4, 3⟩, ⟨5, 4⟩] := by
  refine ⟨by decide, by decide, by decide, by decide⟩

/-! ## General lemmas about the embedded operations -/

theorem String_mk_data (s : String) : String.mk s.data = s := rfl

theorem relativeMediaPath_strip (dir rest : String) :
    relativeMediaPath (dirSlash dir ++ rest) dir = rest := by
  have h1 : (dirSlash dir ++ rest).data.take (dirSlash dir).data.length
      = (dirSlash dir).data := by
    rw [String.data_append]; exact List.take_left _ _
  have h2 : (dirSlash dir ++ rest).data.drop (dirSlash dir).data.length = rest.data := by
    rw [String.data_append]; exact List.drop_left _ _
  simp [relativeMediaPath, h1, h2, String_mk_data]

theorem mediaSection_screenshot (m : MediaFile) (d : String) (h : m.type = some "screenshot") :
    mediaSection m d = "## Screenshot\n" ++ m.path ++ "\n" := by
  have ht : jsOr m.type "file" = "screenshot" := by rw [h]; decide
  simp only [mediaSection, ht]
  simp

theorem mediaSection_audio (m : MediaFile) (d : String) (h : m.type = some "audio") :
    mediaSection m d
      = "## Audio\n[Audio Recording](" ++ relativeMediaPath m.path d ++ ")\n" := by
  have ht : jsOr m.type "file" = "audio" := by rw [h]; decide
  simp only [mediaSection, ht]
  simp

theorem mediaSection_image (m : MediaFile) (d : String) (h : m.type = some "image") :
    mediaSection m d = "## Image\n![Image](" ++ relativeMediaPath m.path d ++ ")\n" := by
  have ht : jsOr m.type "file" = "image" := by rw [h]; decide
  simp only [mediaSection, ht]
  simp

theorem mediaSection_file (m : MediaFile) (d : String) (h : m.type = some "file") :
    mediaSection m d = "## File\n[Attachment](" ++ relativeMediaPath m.path d ++ ")\n" := by
  have ht : jsOr m.type "file" = "file" := by rw [h]; decide
  simp only [mediaSection, ht]
  simp

theorem fmOf_tags (c : CaptureInput) (now : Timestamp) :
    (fmOf c now).tags = normalizeArray c.tags := by
  simp [fmOf]

theorem fmOf_sources (c : CaptureInput) (now : Timestamp) :
    (fmOf c now).sources = normalizeArray c.sources := by
  simp [fmOf]

theorem tags_isInfix (fm : Frontmatter) :
    List.IsInfix (listField "tags" fm.tags) (yamlLines fm) := by
  refine ⟨scalarField "timestamp" fm.timestamp ++ scalarField "id" fm.id
    ++ listField "aliases" fm.aliases ++ scalarField "capture_id" fm.capture_id
    ++ listField "modalities" fm.modalities ++ listField "context" fm.context
    ++ listField "sources" fm.sources,
    optField "location" fm.location ++ mapField "metadata" fm.metadata
    ++ scalarField "processing_status" fm.processing_status
    ++ scalarField "created_date" fm.created_date
    ++ scalarField "last_edited_date" fm.last_edited_date ++ ["importance: null"], ?_⟩
  simp [yamlLines, List.append_assoc]

theorem sources_isInfix (fm : Frontmatter) :
    List.IsInfix (listField "sources" fm.sources) (yamlLines fm) := by
  refine ⟨scalarField "timestamp" fm.timestamp ++ scalarField "id" fm.id
    ++ listField "aliases" fm.aliases ++ scalarField "capture_id" fm.capture_id
    ++ listField "modalities" fm.modalities ++ listField "context" fm.context,
    listField "tags" fm.tags
    ++ optField "location" fm.location ++ mapField "metadata" fm.metadata
    ++ scalarField "processing_status" fm.processing_status
    ++ scalarField "created_date" fm.created_date
    ++ scalarField "last_edited_date" fm.last_edited_date ++ ["importance: null"], ?_⟩
  simp [yamlLines, List.append_assoc]

theorem modalities_isInfix (fm : Frontmatter) :
    List.IsInfix (listField "modalities" fm.modalities) (yamlLines fm) := by
  refine ⟨scalarField "timestamp" fm.timestamp ++ scalarField "id" fm.id
    ++ listField "aliases" fm.aliases ++ scalarField "capture_id" fm.capture_id,
    listField "context" fm.context ++ listField "sources" fm.sources
    ++ listField "tags" fm.tags
    ++ optField "location" fm.location ++ mapField "metadata" fm.metadata
    ++ scalarField "processing_status" fm.processing_status
    ++ scalarField "created_date" fm.created_date
    ++ scalarField "last_edited_date" fm.last_edited_date ++ ["importance: null"], ?_⟩
  simp [yamlLines, List.append_assoc]

theorem findFile_writeText_self (d : Dirf String) (n content : String) :
    findFile (writeTextFile d n content .ok).dir n = some content := by
  simp [writeTextFile, setFile, findFile]

theorem findFile_writeBinary_self (d : Dirf (List Nat)) (n : String) (bytes : List Nat) :
    findFile (writeBinaryFile d n bytes .ok).dir n = some bytes := by
  simp [writeBinaryFile, setFile, findFile]

theorem findFile_writeBinary_other (d : Dirf (List Nat)) (n m : String) (bytes : List Nat)
    (w : WriteOutcome) (h : m ≠ n) :
    findFile (writeBinaryFile d n bytes w).dir m = findFile d m := by
  cases w <;> simp [writeBinaryFile, setFile, createFile, deleteFile, findFile, h]

theorem processMedia_firstFail (d : Dirf (List Nat)) (done : List MediaItem)
    (bad : MediaItem) (rest : List MediaItem) (k : Nat)
    (hok : ∀ m ∈ done, m.outcome = .ok) (hbad : bad.outcome = .failAfter k) :
    processMedia d (done ++ bad :: rest)
      = ((writeBinaryFile (writeOks d done) bad.name bad.bytes bad.outcome).dir,
         some "io error") := by
  induction done generalizing d with
  | nil =>
    simp only [List.nil_append, processMedia, writeOks, List.foldl_nil, hbad,
      writeBinaryFile]
  | cons x tl ih =>
    have hx : x.outcome = .ok := hok x (List.mem_cons_self _ _)
    simp only [List.cons_append, processMedia, hx, writeBinaryFile, writeOks,
      List.foldl_cons]
    exact ih _ (fun m hm => hok m (List.mem_cons_of_mem _ hm))

theorem writeOks_cons (d : Dirf (List Nat)) (x : MediaItem) (tl : List MediaItem) :
    writeOks d (x :: tl) = writeOks (writeBinaryFile d x.name x.bytes x.outcome).dir tl := rfl

theorem findFile_writeOks_other (d : Dirf (List Nat)) (items : List MediaItem)
    (m : String) (h : ∀ it ∈ items, it.name ≠ m) :
    findFile (writeOks d items) m = findFile d m := by
  induction items generalizing d with
  | nil => rfl
  | cons x tl ih =>
    have hx : x.name ≠ m := h x (List.mem_cons_self _ _)
    rw [writeOks_cons, ih _ (fun it hit => h it (List.mem_cons_of_mem _ hit))]
    exact findFile_writeBinary_other _ _ _ _ _ (fun he => hx he.symm)

theorem findFile_writeOks_mem (d : Dirf (List Nat)) (items : List MediaItem)
    (m : MediaItem) (hm : m ∈ items)
    (hok : ∀ it ∈ items, it.outcome = .ok)
    (hnames : (items.map (fun it => it.name)).Nodup) :
    findFile (writeOks d items) m.name = some m.bytes := by
  induction items generalizing d with
  | nil => cases hm
  | cons x tl ih =>
    have hnd : (∀ y ∈ tl, ¬ y.name = x.name) ∧ (List.map (fun it => it.name) tl).Nodup := by
      simpa using hnames
    rcases List.mem_cons.mp hm with heq | hm2
    · subst heq
      rw [writeOks_cons,
        findFile_writeOks_other _ _ _ (fun it hit he => hnd.1 it hit he)]
      have hx : m.outcome = .ok := hok m (List.mem_cons_self _ _)
      rw [hx]
      exact findFile_writeBinary_self _ _ _
    · rw [writeOks_cons]
      exact ih _ hm2 (fun it hit => hok it (List.mem_cons_of_mem _ hit)) hnd.2

/-- C7 amended. A path that starts with the capture directory (with its
trailing slash) is relativized by stripping that leading segment; audio,
image and file sections render the relativized path; a screenshot
section renders the stored path verbatim, so paths outside the capture
directory — absolute ones included — reach the body unchanged. -/
theorem C7_media_path_rendering (dir rest : String) (m : MediaFile) :
    relativeMediaPath (dirSlash dir ++ rest) dir = rest
    ∧ (m.type = some "screenshot" →
        mediaSection m dir = "## Screenshot\n" ++ m.path ++ "\n")
    ∧ (m.type = some "audio" →
        mediaSection m dir
          = "## Audio\n[Audio Recording](" ++ relativeMediaPath m.path dir ++ ")\n")
    ∧ (m.type = some "image" →
        mediaSection m dir
          = "## Image\n![Image](" ++ relativeMediaPath m.path dir ++ ")\n")
    ∧ (m.type = some "file" →
        mediaSection m dir
          = "## File\n[Attachment](" ++ relativeMediaPath m.path dir ++ ")\n") :=
  ⟨relativeMediaPath_strip dir rest,
   fun h => mediaSection_screenshot m dir h,
   fun h => mediaSection_audio m dir h,
   fun h => mediaSection_image m dir h,
   fun h => mediaSection_file m dir h⟩

/-- Witness for C7: concrete instances of the stripping behavior and of
the verbatim screenshot path. -/
theorem C7_media_path_rendering_witness :
    relativeMediaPath (dirSlash "/v/cap" ++ "media/a.mp3") "/v/cap" = "media/a.mp3"
    ∧ mediaSection ⟨"/abs/x.png", some "screenshot", none⟩ "/v/cap"
      = "## Screenshot\n" ++ "/abs/x.png" ++ "\n" :=
  ⟨(C7_media_path_rendering "/v/cap" "media/a.mp3"
      ⟨"/abs/x.png", some "screenshot", none⟩).1,
   (C7_media_path_rendering "/v/cap" "media/a.mp3"
      ⟨"/abs/x.png", some "screenshot", none⟩).2.1 rfl⟩

/-- C10. A capture with an absent or empty modalities list gets the
modality list consisting of exactly "text" written into its metadata
header; a non-empty modalities list is passed through unchanged. -/
theorem C10_default_modalities (c : CaptureInput) (now : Timestamp) :
    ((c.modalities = none ∨ c.modalities = some []) →
      (fmOf c now).modalities = ["text"]
      ∧ List.IsInfix ["modalities:", "  - text"] (yamlLines (fmOf c now)))
    ∧ (∀ l, c.modalities = some l → l ≠ [] →
      (fmOf c now).modalities = l
      ∧ List.IsInfix ("modalities:" :: l.map (fun v => "  - " ++ renderScalar v))
          (yamlLines (fmOf c now))) := by
  constructor
  · intro h
    have hm : (fmOf c now).modalities = ["text"] := by
      rcases h with h | h <;> simp [fmOf, h]
    refine ⟨hm, ?_⟩
    have hinf := modalities_isInfix (fmOf c now)
    rw [hm] at hinf
    have e : listField "modalities" ["text"] = ["modalities:", "  - text"] := by decide
    rwa [e] at hinf
  · intro l hl hne
    have hemp : l.isEmpty = false := by
      cases l with
      | nil => exact absurd rfl hne
      | cons a as => rfl
    have hm : (fmOf c now).modalities = l := by simp [fmOf, hl, hemp]
    refine ⟨hm, ?_⟩
    have hinf := modalities_isInfix (fmOf c now)
    rw [hm] at hinf
    have e : listField "modalities" l
        = "modalities:" :: l.map (fun v => "  - " ++ renderScalar v) := by
      simp [listField, hemp]
    rwa [e] at hinf

/-- Witness for C10: the default applied to a capture with no
modalities field. -/
theorem C10_default_modalities_witness :
    (fmOf emptyCapture Tfix).modalities = ["text"]
    ∧ List.IsInfix ["modalities:", "  - text"] (yamlLines (fmOf emptyCapture Tfix)) :=
  (C10_default_modalities emptyCapture Tfix).1 (Or.inl rfl)

/-- C6 amended. Tag and source arrays reach the metadata header exactly
as supplied, one block-sequence entry per input element in order, with
no case folding and no deduplication of entries differing only in
case. -/
theorem C6_no_case_dedup (c : CaptureInput) (now : Timestamp) (lt ls : List String)
    (ht : c.tags = .arr lt) (hs : c.sources = .arr ls) :
    (fmOf c now).tags = lt ∧ (fmOf c now).sources = ls
    ∧ List.IsInfix (listField "tags" lt) (yamlLines (fmOf c now))
    ∧ List.IsInfix (listField "sources" ls) (yamlLines (fmOf c now))
    ∧ (lt ≠ [] →
        listField "tags" lt = "tags:" :: lt.map (fun v => "  - " ++ renderScalar v)) := by
  have h1 : (fmOf c now).tags = lt := by rw [fmOf_tags, ht]; rfl
  have h2 : (fmOf c now).sources = ls := by rw [fmOf_sources, hs]; rfl
  refine ⟨h1, h2, ?_, ?_, ?_⟩
  · have hinf := tags_isInfix (fmOf c now)
    rwa [h1] at hinf
  · have hinf := sources_isInfix (fmOf c now)
    rwa [h2] at hinf
  · intro hne
    have hemp : lt.isEmpty = false := by
      cases lt with
      | nil => exact absurd rfl hne
      | cons a as => rfl
    simp [listField, hemp]

/-- Witness for C6: the fixture whose tags differ only in case keeps
both entries in the header. -/
theorem C6_no_case_dedup_witness :
    (fmOf c6cap Tfix).tags = ["ML", "ml"]
    ∧ List.IsInfix (listField "tags" ["ML", "ml"]) (yamlLines (fmOf c6cap Tfix)) :=
  ⟨(C6_no_case_dedup c6cap Tfix ["ML", "ml"] ["Web", "web"] rfl rfl).1,
   (C6_no_case_dedup c6cap Tfix ["ML", "ml"] ["Web", "web"] rfl rfl).2.2.1⟩

/-- C5 amended. Both identifier generators emit only filename-safe
characters (no path separators, no control characters) and work at
exactly millisecond resolution — the full millisecond timestamp can be
decoded back from the serializer's identifier — but the identifier is a
pure function of the Date's millisecond value: two capture instants
inside the same process tick always receive identical identifiers. -/
theorem C5_identifier_properties (t : Timestamp) (i j : Instant)
    (hval : t.Valid) (hsame : i.date = j.date) :
    ((generateCaptureId t).data.all filenameSafeChar) = true
    ∧ ((Terminal.generateCaptureId t).data.all filenameSafeChar) = true
    ∧ decodeIso (generateCaptureId t).data = some t
    ∧ genIdAtInstant i = genIdAtInstant j := by
  refine ⟨?_, ?_, decodeIso_toISOString t hval, ?_⟩
  · show ((toISOString t).data.all filenameSafeChar) = true
    simp only [toISOString, pad4, pad3, pad2, List.cons_append, List.nil_append,
      List.all_cons, filenameSafeChar_digitChar, Bool.true_and, List.all_nil]
    decide
  · show ((Terminal.generateCaptureId t).data.all filenameSafeChar) = true
    simp only [Terminal.generateCaptureId, pad4, pad3, pad2, List.cons_append,
      List.nil_append, List.all_cons, filenameSafeChar_digitChar, Bool.true_and,
      List.all_nil]
    decide
  · show generateCaptureId i.date = generateCaptureId j.date
    rw [hsame]

/-- Witness for C5: the fixed timestamp is valid and the two same-tick
instants are covered by the theorem. -/
theorem C5_identifier_properties_witness :
    Tfix.Valid ∧ tick1.date = tick2.date
    ∧ (((generateCaptureId Tfix).data.all filenameSafeChar) = true
       ∧ ((Terminal.generateCaptureId Tfix).data.all filenameSafeChar) = true
       ∧ decodeIso (generateCaptureId Tfix).data = some Tfix
       ∧ genIdAtInstant tick1 = genIdAtInstant tick2) :=
  ⟨by decide, by decide, C5_identifier_properties Tfix tick1 tick2 (by decide) (by decide)⟩

/-- C3 amended. When the writes of the attachments before position i all
succeed and attachment i's write fails, the save reports a generic
error; the capture markdown file has been created (it is written before
any media), and every attachment already written stays on disk — there
is no rollback. -/
theorem C3_media_failure_behavior (st : SaveState) (filename content : String)
    (done : List MediaItem) (bad : MediaItem) (rest : List MediaItem) (k : Nat)
    (hok : ∀ m ∈ done, m.outcome = .ok) (hbad : bad.outcome = .failAfter k)
    (hnames : (done.map (fun it => it.name)).Nodup)
    (hbadname : ∀ m ∈ done, m.name ≠ bad.name) :
    (saveMarkdownAndMedia st filename content .ok (done ++ bad :: rest)).2 = some "io error"
    ∧ findFile
        (saveMarkdownAndMedia st filename content .ok (done ++ bad :: rest)).1.captureDir
        filename = some content
    ∧ ∀ m ∈ done,
        findFile
          (saveMarkdownAndMedia st filename content .ok (done ++ bad :: rest)).1.mediaDir
          m.name = some m.bytes := by
  have hsave : saveMarkdownAndMedia st filename content .ok (done ++ bad :: rest)
      = (⟨(writeTextFile st.captureDir filename content .ok).dir,
          (writeBinaryFile (writeOks st.mediaDir done) bad.name bad.bytes bad.outcome).dir⟩,
         some "io error") := by
    simp only [saveMarkdownAndMedia, writeTextFile,
      processMedia_firstFail st.mediaDir done bad rest k hok hbad]
  rw [hsave]
  refine ⟨rfl, findFile_writeText_self _ _ _, ?_⟩
  intro m hm
  rw [findFile_writeBinary_other _ _ _ _ _ (hbadname m hm)]
  exact findFile_writeOks_mem _ _ _ hm hok hnames

/-- Witness for C3: one successful attachment followed by one failing
attachment, saved into an empty vault. -/
theorem C3_media_failure_behavior_witness :
    (saveMarkdownAndMedia emptySave "cw.md" "XW" .ok
        [⟨"aw.png", [7], .ok⟩, ⟨"bw.png", [9], .failAfter 0⟩]).2 = some "io error"
    ∧ findFile (saveMarkdownAndMedia emptySave "cw.md" "XW" .ok
        [⟨"aw.png", [7], .ok⟩, ⟨"bw.png", [9], .failAfter 0⟩]).1.captureDir "cw.md"
      = some "XW"
    ∧ findFile (saveMarkdownAndMedia emptySave "cw.md" "XW" .ok
        [⟨"aw.png", [7], .ok⟩, ⟨"bw.png", [9], .failAfter 0⟩]).1.mediaDir "aw.png"
      = some [7] := by
  have h := C3_media_failure_behavior emptySave "cw.md" "XW"
    [⟨"aw.png", [7], .ok⟩] ⟨"bw.png", [9], .failAfter 0⟩ [] 0
    (by decide) (by decide) (by decide) (by decide)
  exact ⟨h.1, h.2.1, h.2.2 ⟨"aw.png", [7], .ok⟩ (by decide)⟩

/-- A list differs from the Clipboard marker when some position holds a
different character. -/
theorem ne_marker_of_get (L : List Char) (i : Nat) (c : Char)
    (hL : L.get? i = some c) (hc : ("## Clipboard".data).get? i ≠ some c) :
    L ≠ "## Clipboard".data := by
  intro h
  rw [h] at hL
  exact hc hL

theorem content_ne_marker (mc : String) :
    (("## Content\n" ++ mc ++ "\n").data.take 12) ≠ "## Clipboard".data := by
  refine ne_marker_of_get _ 4 'o' ?_ (by decide)
  rfl

theorem media_ne_marker (m : MediaFile) (d : String) :
    ((mediaSection m d).data.take 12) ≠ "## Clipboard".data := by
  simp only [mediaSection]
  split_ifs
  · refine ne_marker_of_get _ 3 'S' ?_ (by decide); rfl
  · refine ne_marker_of_get _ 3 'A' ?_ (by decide); rfl
  · refine ne_marker_of_get _ 3 'I' ?_ (by decide); rfl
  · refine ne_marker_of_get _ 3 'F' ?_ (by decide); rfl

/-- Invert a string emptiness test. -/
theorem isEmpty_false (s : String) (h : s ≠ "") : s.isEmpty = false := by
  cases hE : s.isEmpty
  · rfl
  · exact absurd ((String.isEmpty_iff s).mp hE) h

/-- C8 amended. A Clipboard section is emitted if and only if the
clipboard text has non-whitespace characters; the text is inserted
verbatim when it starts with a fence or spans several lines, and is
wrapped in a fenced block exactly when it is single-line and not
already fenced. -/
theorem C8_clipboard_behavior (c : CaptureInput) (d : String) (clip : String)
    (hc : jsOr c.clipboard "" = clip) :
    ((∃ s ∈ sectionsOf c d, s.data.take 12 = "## Clipboard".data) ↔ jsTrim clip ≠ "")
    ∧ (jsTrim clip ≠ "" → (clip.data.take 3 = "```".data ∨ '\n' ∈ clip.data) →
        "## Clipboard\n" ++ clip ++ "\n" ∈ sectionsOf c d)
    ∧ (jsTrim clip ≠ "" → ¬(clip.data.take 3 = "```".data ∨ '\n' ∈ clip.data) →
        "## Clipboard\n```\n" ++ clip ++ "\n```\n" ∈ sectionsOf c d) := by
  have hsec : sectionsOf c d
      = contentSection (jsOr c.content "") ++ clipboardSection clip ++
        (c.media_files.getD []).map (fun m => mediaSection m d) := by
    rw [sectionsOf, hc]
  constructor
  · constructor
    · rintro ⟨s, hs, hmark⟩
      intro hT
      have hclip : clipboardSection clip = [] := by
        have hE : (jsTrim clip).isEmpty = true := by rw [hT]; rfl
        simp [clipboardSection, hE]
      rw [hsec, hclip, List.append_nil] at hs
      rcases List.mem_append.mp hs with hcont | hmed
      · have : s = "## Content\n" ++ jsOr c.content "" ++ "\n" := by
          unfold contentSection at hcont
          split at hcont
          · exact List.mem_singleton.mp hcont
          · cases hcont
        subst this
        exact content_ne_marker _ hmark
      · obtain ⟨m, _, rfl⟩ := List.mem_map.mp hmed
        exact media_ne_marker m d hmark
    · intro hne
      have hE : (jsTrim clip).isEmpty = false := isEmpty_false _ hne
      by_cases hcond : clip.data.take 3 = "```".data ∨ '\n' ∈ clip.data
      · refine ⟨"## Clipboard\n" ++ clip ++ "\n", ?_, rfl⟩
        rw [hsec]
        simp only [List.mem_append]
        exact Or.inl (Or.inr (by simp [clipboardSection, hE, hcond]))
      · refine ⟨"## Clipboard\n```\n" ++ clip ++ "\n```\n", ?_, rfl⟩
        rw [hsec]
        simp only [List.mem_append]
        exact Or.inl (Or.inr (by simp [clipboardSection, hE, hcond]))
  · constructor
    · intro hne hcond
      have hE : (jsTrim clip).isEmpty = false := isEmpty_false _ hne
      rw [hsec]
      simp only [List.mem_append]
      exact Or.inl (Or.inr (by simp [clipboardSection, hE, hcond]))
    · intro hne hcond
      have hE : (jsTrim clip).isEmpty = false := isEmpty_false _ hne
      rw [hsec]
      simp only [List.mem_append]
      exact Or.inl (Or.inr (by simp [clipboardSection, hE, hcond]))

/-- Witness for C8: the multi-line fixture clipboard is emitted verbatim
and the whitespace-only fixture has no Clipboard section. -/
theorem C8_clipboard_behavior_witness :
    ("## Clipboard\na\nb\n" ∈ sectionsOf c8multi "/v")
    ∧ ¬ (∃ s ∈ sectionsOf c8ws "/v", s.data.take 12 = "## Clipboard".data) :=
  ⟨(C8_clipboard_behavior c8multi "/v" "a\nb" (by decide)).2.1 (by decide)
      (Or.inr (by decide)),
   fun hex => (by decide : ¬ jsTrim " " ≠ "")
      ((C8_clipboard_behavior c8ws "/v" " " (by decide)).1.mp hex)⟩

theorem head_append (k rest : String) (c : Char) (hk : k.data.head? = some c) :
    (k ++ rest).data.head? = some c := by
  rw [String.data_append]
  cases hd : k.data with
  | nil => rw [hd] at hk; cases hk
  | cons a as =>
    have ha : a = c := by
      rw [hd] at hk
      exact Option.some.inj hk
    subst ha
    simp [hd]

theorem goodLine_of_head (s : String) (c : Char) (h : s.data.head? = some c)
    (hc : c ≠ '-') (hs : LineSafe s) : GoodLine s := by
  refine ⟨?_, ?_, hs⟩
  · intro he
    subst he
    cases h
  · intro he
    subst he
    have h2 : some '-' = some c := h
    exact hc (Option.some.inj h2).symm

theorem lineSafe_append (a b : String) (ha : LineSafe a) (hb : LineSafe b) :
    LineSafe (a ++ b) := by
  intro hmem
  rw [String.data_append] at hmem
  rcases List.mem_append.mp hmem with h | h
  · exact ha h
  · exact hb h

theorem lineSafe_renderScalar (v : String) (hv : LineSafe v) :
    LineSafe (renderScalar v) := by
  unfold renderScalar
  split
  · intro hmem
    have hmem2 : '\n' ∈ (sq :: v.data ++ [sq]) := hmem
    rcases List.mem_cons.mp hmem2 with h | h
    · exact absurd h (by decide)
    · rcases List.mem_append.mp h with h2 | h2
      · exact hv h2
      · exact absurd (List.mem_singleton.mp h2) (by decide)
  · exact hv

theorem goodLine_scalarField (k v : String) (c : Char) (hk : k.data.head? = some c)
    (hc : c ≠ '-') (hkn : LineSafe k) (hv : LineSafe v) :
    ∀ l ∈ scalarField k v, GoodLine l := by
  intro l hl
  have he : l = k ++ ": " ++ renderScalar v := List.mem_singleton.mp hl
  subst he
  refine goodLine_of_head _ c ?_ hc ?_
  · exact head_append _ _ _ (head_append _ _ _ hk)
  · exact lineSafe_append _ _ (lineSafe_append _ _ hkn (by decide))
      (lineSafe_renderScalar _ hv)

theorem goodLine_listField (k : String) (items : List String) (c : Char)
    (hk : k.data.head? = some c) (hc : c ≠ '-') (hkn : LineSafe k)
    (hitems : ∀ v ∈ items, LineSafe v) :
    ∀ l ∈ listField k items, GoodLine l := by
  intro l hl
  unfold listField at hl
  split at hl
  · have he : l = k ++ ": []" := List.mem_singleton.mp hl
    subst he
    exact goodLine_of_head _ c (head_append _ _ _ hk) hc
      (lineSafe_append _ _ hkn (by decide))
  · rcases List.mem_cons.mp hl with he | hmap
    · subst he
      exact goodLine_of_head _ c (head_append _ _ _ hk) hc
        (lineSafe_append _ _ hkn (by decide))
    · obtain ⟨v, hvmem, he⟩ := List.mem_map.mp hmap
      subst he
      refine goodLine_of_head _ ' ' (head_append _ _ _ rfl) (by decide) ?_
      exact lineSafe_append _ _ (by decide) (lineSafe_renderScalar _ (hitems v hvmem))

theorem goodLine_mapField (k : String) (m : List (String × String)) (c : Char)
    (hk : k.data.head? = some c) (hc : c ≠ '-') (hkn : LineSafe k)
    (hm : ∀ p ∈ m, LineSafe p.1 ∧ LineSafe p.2) :
    ∀ l ∈ mapField k m, GoodLine l := by
  intro l hl
  unfold mapField at hl
  split at hl
  · have he : l = k ++ ": \x7b\x7d" := List.mem_singleton.mp hl
    subst he
    exact goodLine_of_head _ c (head_append _ _ _ hk) hc
      (lineSafe_append _ _ hkn (by decide))
  · rcases List.mem_cons.mp hl with he | hmap
    · subst he
      exact goodLine_of_head _ c (head_append _ _ _ hk) hc
        (lineSafe_append _ _ hkn (by decide))
    · obtain ⟨p, hpmem, he⟩ := List.mem_map.mp hmap
      subst he
      refine goodLine_of_head _ ' ' (head_append _ _ _ (head_append _ _ _
        (head_append _ _ _ rfl))) (by decide) ?_
      exact lineSafe_append _ _
        (lineSafe_append _ _ (lineSafe_append _ _ (by decide) (hm p hpmem).1) (by decide))
        (lineSafe_renderScalar _ (hm p hpmem).2)

theorem goodLine_optField (k : String) (v : Option String) (c : Char)
    (hk : k.data.head? = some c) (hc : c ≠ '-') (hkn : LineSafe k)
    (hv : locSafe v) :
    ∀ l ∈ optField k v, GoodLine l := by
  intro l hl
  cases v with
  | none => cases hl
  | some s => exact goodLine_scalarField k s c hk hc hkn hv l hl

theorem sections_take3 (c : CaptureInput) (d : String) :
    ∀ s ∈ sectionsOf c d, s.data.take 3 = "## ".data := by
  intro s hs
  rw [sectionsOf] at hs
  rcases List.mem_append.mp hs with h1 | hmed
  · rcases List.mem_append.mp h1 with hcont | hclip
    · unfold contentSection at hcont
      split at hcont
      · rw [List.mem_singleton.mp hcont]; rfl
      · cases hcont
    · unfold clipboardSection at hclip
      split at hclip
      · split at hclip
        · rw [List.mem_singleton.mp hclip]; rfl
        · rw [List.mem_singleton.mp hclip]; rfl
      · cases hclip
  · obtain ⟨m, _, he⟩ := List.mem_map.mp hmed
    subst he
    simp only [mediaSection]
    split_ifs <;> rfl

theorem take3_joinAll (l : List String) (h3 : ∀ s ∈ l, s.data.take 3 = "## ".data)
    (hne : l ≠ []) : (joinAll l).data.take 3 = "## ".data := by
  cases l with
  | nil => exact absurd rfl hne
  | cons s rest =>
    have hs := h3 s (List.mem_cons_self _ _)
    have hlen : 3 ≤ s.data.length := by
      have hlt := congrArg List.length hs
      rw [List.length_take] at hlt
      have : min 3 s.data.length = 3 := by
        rw [hlt]; rfl
      omega
    have hdata : (joinAll (s :: rest)).data = s.data ++ (joinAll rest).data := by
      simp [joinAll]
    rw [hdata, List.take_append_eq_append_take, hs]
    have h0 : 3 - s.data.length = 0 := by omega
    rw [h0]
    simp

/-- C4. For every capture whose computed header fields are single-line,
the serializer returns the filename formed from the identifier plus
".md", and a text made of the dumped header enclosed between two
separator lines followed immediately by the body: every header line is
non-blank and distinct from the separator, and when any body section
exists the text after the closing separator starts at once with a "## "
heading — no blank line in between. -/
theorem C4_layout (c : CaptureInput) (d : String) (now : Timestamp)
    (h : headerSafe (fmOf c now)) :
    (formatCaptureMarkdown c d now).filename = (fmOf c now).capture_id ++ ".md"
    ∧ (formatCaptureMarkdown c d now).content
      = "---\n" ++ joinLines (yamlLines (fmOf c now)) ++ "---\n"
        ++ joinAll (sectionsOf c d)
    ∧ (∀ l ∈ yamlLines (fmOf c now), GoodLine l)
    ∧ (sectionsOf c d ≠ [] → (joinAll (sectionsOf c d)).data.take 3 = "## ".data) := by
  obtain ⟨h1, h2, h3, h4, h5, h6, h7, h8, h9, h10, h11, h12, h13⟩ := h
  refine ⟨rfl, rfl, ?_, fun hne => take3_joinAll _ (sections_take3 c d) hne⟩
  intro l hl
  rw [yamlLines] at hl
  simp only [List.append_assoc, List.mem_append] at hl
  rcases hl with hl | hl | hl | hl | hl | hl | hl | hl | hl | hl | hl | hl | hl | hl
  · exact goodLine_scalarField _ _ 't' (by rfl) (by decide) (by decide) h1 l hl
  · exact goodLine_scalarField _ _ 'i' (by rfl) (by decide) (by decide) h2 l hl
  · exact goodLine_listField _ _ 'a' (by rfl) (by decide) (by decide) h3 l hl
  · exact goodLine_scalarField _ _ 'c' (by rfl) (by decide) (by decide) h4 l hl
  · exact goodLine_listField _ _ 'm' (by rfl) (by decide) (by decide) h5 l hl
  · exact goodLine_listField _ _ 'c' (by rfl) (by decide) (by decide) h6 l hl
  · exact goodLine_listField _ _ 's' (by rfl) (by decide) (by decide) h7 l hl
  · exact goodLine_listField _ _ 't' (by rfl) (by decide) (by decide) h8 l hl
  · exact goodLine_optField _ _ 'l' (by rfl) (by decide) (by decide) h9 l hl
  · exact goodLine_mapField _ _ 'm' (by rfl) (by decide) (by decide) h10 l hl
  · exact goodLine_scalarField _ _ 'p' (by rfl) (by decide) (by decide) h11 l hl
  · exact goodLine_scalarField _ _ 'c' (by rfl) (by decide) (by decide) h12 l hl
  · exact goodLine_scalarField _ _ 'l' (by rfl) (by decide) (by decide) h13 l hl
  · have he : l = "importance: null" := List.mem_singleton.mp hl
    subst he
    refine ⟨by decide, by decide, by decide⟩

/-- Witness for C4: the layout holds at the first fixture capture,
whose header fields are single-line. -/
theorem C4_layout_witness :
    (formatCaptureMarkdown cap1 "/v" Tfix).filename
      = (fmOf cap1 Tfix).capture_id ++ ".md"
    ∧ (∀ l ∈ yamlLines (fmOf cap1 Tfix), GoodLine l)
    ∧ (sectionsOf cap1 "/v" ≠ [] →
        (joinAll (sectionsOf cap1 "/v")).data.take 3 = "## ".data) :=
  ⟨(C4_layout cap1 "/v" Tfix (by decide)).1,
   (C4_layout cap1 "/v" Tfix (by decide)).2.2.1,
   (C4_layout cap1 "/v" Tfix (by decide)).2.2.2⟩

end KMS
